import Mathlib

/-!
Verification of the bigstringaf C stubs (`bigstringaf_stubs.c`): raw
byte-buffer blit and comparison primitives, together with the bounds-checked
view layer specified for them.

A region of off-heap memory is modelled as a `List Nat` of its bytes; the
capacity of a region is the length of the list.  The C stubs operate on
`(base pointer + offset, length)` ranges; offsets and lengths are `Nat`.
Two physically distinct regions can always be represented as disjoint views
into one region (their concatenation), so a single shared region with two
views is the general case and in particular covers aliasing.
-/

namespace Bigstringaf

/-- Bytes of `r` in the range `[off, off + len)`: the source expression
`(char *)base + off` read for `len` bytes. -/
def readBytes (r : List Nat) (off len : Nat) : List Nat :=
  (r.drop off).take len

/-- Overwrite the bytes of `dst` in the range `[off, off + data.length)`
with `data`, leaving every other byte unchanged. -/
def writeBytes (dst : List Nat) (off : Nat) (data : List Nat) : List Nat :=
  dst.take off ++ (data ++ dst.drop (off + data.length))

/-- `memcmp` over two equal-length byte lists: walks the bytes in order and
returns the (signed) difference of the first differing pair of bytes, `0`
when all bytes agree.  Bytes are compared as unsigned values, as `memcmp`
does over `unsigned char`. -/
def memcmpBytes : List Nat → List Nat → Int
  | [], _ => 0
  | _ :: _, [] => 0
  | a :: as, b :: bs => if a = b then memcmpBytes as bs else (a : Int) - (b : Int)

/-- `bigstringaf_blit_to_bytes`: `memcpy` of `len` bytes from
`src + srcOff` into `dst + dstOff`.  The two operands live in different
storage classes (bigarray data vs. managed bytes) and never alias, so the
`memcpy` is the plain splice of the source range into the destination. -/
def bigstringaf_blit_to_bytes (src : List Nat) (srcOff : Nat)
    (dst : List Nat) (dstOff len : Nat) : List Nat :=
  writeBytes dst dstOff (readBytes src srcOff len)

/-- `bigstringaf_blit_to_bigstring`: `memmove` of `len` bytes from
`r + srcOff` into `r + dstOff` within one region `r` (the two bigarray
operands may alias; distinct regions are the disjoint-view special case of
this).  `memmove` semantics: the destination range receives the bytes the
source range held *before* the call, so the source range is read out of the
pre-state and then spliced in. -/
def bigstringaf_blit_to_bigstring (r : List Nat) (srcOff dstOff len : Nat) :
    List Nat :=
  writeBytes r dstOff (readBytes r srcOff len)

/-- `bigstringaf_blit_from_bytes`: `memcpy` of `len` bytes from
`src + srcOff` (managed bytes) into `dst + dstOff` (bigarray data);
non-aliasing by storage class. -/
def bigstringaf_blit_from_bytes (src : List Nat) (srcOff : Nat)
    (dst : List Nat) (dstOff len : Nat) : List Nat :=
  writeBytes dst dstOff (readBytes src srcOff len)

/-- `bigstringaf_memcmp_bigstring`: `memcmp` of `len` bytes at
`r1 + off1` and `r2 + off2`. -/
def bigstringaf_memcmp_bigstring (r1 : List Nat) (off1 : Nat)
    (r2 : List Nat) (off2 len : Nat) : Int :=
  memcmpBytes (readBytes r1 off1 len) (readBytes r2 off2 len)

/-- `bigstringaf_memcmp_string`: `memcmp` of `len` bytes at `r + off1`
(bigarray data) and `s + off2` (managed string bytes). -/
def bigstringaf_memcmp_string (r : List Nat) (off1 : Nat)
    (s : List Nat) (off2 len : Nat) : Int :=
  memcmpBytes (readBytes r off1 len) (readBytes s off2 len)

/-- A view: an `(offset, length)` sub-range of some region. -/
structure View where
  off : Nat
  len : Nat
deriving DecidableEq

/-- The error taxonomy of the specification. -/
inductive BsError where
  | OutOfBounds
  | LengthMismatch
deriving DecidableEq

/-- Modelled from the spec: the bounds-checked wrapper layer around the
stubs, whose OCaml side is not part of the source tree.  `copy_to_sequence`
copies `v.len` bytes from the buffer view `(src, v)` into the byte sequence
`dst` at `dstOff`; each operand's bounds are validated before any byte
transfer, failing with `OutOfBounds`. -/
def copy_to_sequence (src : List Nat) (v : View) (dst : List Nat)
    (dstOff : Nat) : Except BsError (List Nat) :=
  if v.off + v.len ≤ src.length then
    if dstOff + v.len ≤ dst.length then
      Except.ok (bigstringaf_blit_to_bytes src v.off dst dstOff v.len)
    else Except.error BsError.OutOfBounds
  else Except.error BsError.OutOfBounds

/-- Modelled from the spec: `copy_between_regions` copies between two views
`src` and `dst` of the (shared, possibly aliasing) region `r`.  All bounds
are validated first (`OutOfBounds`), then the two lengths must agree
(`LengthMismatch`); only then does the overlap-safe `memmove` blit run. -/
def copy_between_regions (r : List Nat) (src dst : View) :
    Except BsError (List Nat) :=
  if src.off + src.len ≤ r.length then
    if dst.off + dst.len ≤ r.length then
      if src.len = dst.len then
        Except.ok (bigstringaf_blit_to_bigstring r src.off dst.off src.len)
      else Except.error BsError.LengthMismatch
    else Except.error BsError.OutOfBounds
  else Except.error BsError.OutOfBounds

/-- Modelled from the spec: `copy_from_sequence` copies `v.len` bytes from
the byte sequence `src` at `srcOff` into the buffer view `(dst, v)`;
bounds of both operands are validated before any byte transfer. -/
def copy_from_sequence (src : List Nat) (srcOff : Nat) (dst : List Nat)
    (v : View) : Except BsError (List Nat) :=
  if srcOff + v.len ≤ src.length then
    if v.off + v.len ≤ dst.length then
      Except.ok (bigstringaf_blit_from_bytes src srcOff dst v.off v.len)
    else Except.error BsError.OutOfBounds
  else Except.error BsError.OutOfBounds

/-- Modelled from the spec: `compare` lexicographically compares the two
buffer views `(r1, v1)` and `(r2, v2)`.  Bounds of both views are validated
first (`OutOfBounds`), then the lengths must agree (`LengthMismatch`). -/
def compare (r1 : List Nat) (v1 : View) (r2 : List Nat) (v2 : View) :
    Except BsError Int :=
  if v1.off + v1.len ≤ r1.length then
    if v2.off + v2.len ≤ r2.length then
      if v1.len = v2.len then
        Except.ok (bigstringaf_memcmp_bigstring r1 v1.off r2 v2.off v1.len)
      else Except.error BsError.LengthMismatch
    else Except.error BsError.OutOfBounds
  else Except.error BsError.OutOfBounds

/-- Modelled from the spec: `compare_with_sequence` has the same contract
as `compare`, with a buffer-backed first operand and a sequence-backed
second operand. -/
def compare_with_sequence (r : List Nat) (v : View) (s : List Nat)
    (vs : View) : Except BsError Int :=
  if v.off + v.len ≤ r.length then
    if vs.off + vs.len ≤ s.length then
      if v.len = vs.len then
        Except.ok (bigstringaf_memcmp_string r v.off s vs.off v.len)
      else Except.error BsError.LengthMismatch
    else Except.error BsError.OutOfBounds
  else Except.error BsError.OutOfBounds

/-- State-passing form of `compare`: the memory pair `(r1, r2)` goes in,
and the call's semantics yields the returned integer together with the
memory after the call.  Translated from the stub body: it computes
`memcmp` of the two ranges — a read of both ranges with no store — and
returns `Val_int(result)`, so the memory after the call is the memory
before it. -/
def compareRun (m : List Nat × List Nat) (v1 v2 : View) :
    Except BsError Int × (List Nat × List Nat) :=
  (compare m.1 v1 m.2 v2, m)

/-- State-passing form of `compare_with_sequence`, exactly as
`compareRun`: the stub only reads both ranges and returns the `memcmp`
result, storing nothing. -/
def compare_with_sequenceRun (m : List Nat × List Nat) (v vs : View) :
    Except BsError Int × (List Nat × List Nat) :=
  (compare_with_sequence m.1 v m.2 vs, m)

instance {ε α : Type} [DecidableEq ε] [DecidableEq α] :
    DecidableEq (Except ε α) := fun a b =>
  match a, b with
  | Except.ok x, Except.ok y =>
    if h : x = y then isTrue (by rw [h]) else isFalse (by simp [h])
  | Except.error e, Except.error f =>
    if h : e = f then isTrue (by rw [h]) else isFalse (by simp [h])
  | Except.ok _, Except.error _ => isFalse (by simp)
  | Except.error _, Except.ok _ => isFalse (by simp)

/-! Helper lemmas about the byte-range primitives. -/

theorem readBytes_length (r : List Nat) (off len : Nat)
    (h : off + len ≤ r.length) : (readBytes r off len).length = len := by
  simp only [readBytes, List.length_take, List.length_drop]
  omega

theorem readBytes_getElem (r : List Nat) (off len i : Nat) (hi : i < len) :
    (readBytes r off len)[i]? = r[off + i]? := by
  simp only [readBytes, List.getElem?_take, hi, if_true, List.getElem?_drop]

theorem writeBytes_length (dst : List Nat) (off : Nat) (data : List Nat)
    (h : off + data.length ≤ dst.length) :
    (writeBytes dst off data).length = dst.length := by
  simp only [writeBytes, List.length_append, List.length_take,
    List.length_drop]
  omega

theorem writeBytes_getElem_lt (dst : List Nat) (off : Nat) (data : List Nat)
    (i : Nat) (h : off ≤ dst.length) (hi : i < off) :
    (writeBytes dst off data)[i]? = dst[i]? := by
  have hA : (dst.take off).length = off := by
    simp only [List.length_take]; omega
  simp only [writeBytes, List.getElem?_append, hA, hi, if_true,
    List.getElem?_take]

theorem writeBytes_getElem_mid (dst : List Nat) (off : Nat) (data : List Nat)
    (i : Nat) (h : off ≤ dst.length) (hi : i < data.length) :
    (writeBytes dst off data)[off + i]? = data[i]? := by
  have hA : (dst.take off).length = off := by
    simp only [List.length_take]; omega
  have hlt : ¬ off + i < off := by omega
  simp only [writeBytes, List.getElem?_append, hA, hlt, if_false,
    Nat.add_sub_cancel_left, hi, if_true]

theorem writeBytes_getElem_ge (dst : List Nat) (off : Nat) (data : List Nat)
    (i : Nat) (h : off + data.length ≤ dst.length)
    (hi : off + data.length ≤ i) :
    (writeBytes dst off data)[i]? = dst[i]? := by
  have hA : (dst.take off).length = off := by
    simp only [List.length_take]; omega
  have h1 : ¬ i < off := by omega
  have h2 : ¬ i - off < data.length := by omega
  simp only [writeBytes, List.getElem?_append, hA, h1, if_false, h2,
    List.getElem?_drop]
  congr 1
  omega

theorem memcmpBytes_self : ∀ xs : List Nat, memcmpBytes xs xs = 0
  | [] => rfl
  | a :: as => by simp [memcmpBytes, memcmpBytes_self as]

theorem memcmpBytes_swap : ∀ xs ys : List Nat,
    memcmpBytes ys xs = - memcmpBytes xs ys
  | [], [] => by simp [memcmpBytes]
  | [], _ :: _ => by simp [memcmpBytes]
  | _ :: _, [] => by simp [memcmpBytes]
  | a :: as, b :: bs => by
    by_cases h : a = b
    · subst h
      simp [memcmpBytes, memcmpBytes_swap as bs]
    · have h' : b ≠ a := fun hh => h hh.symm
      simp only [memcmpBytes, h, h', if_false]
      omega

theorem memcmpBytes_spec : ∀ xs ys : List Nat, xs.length = ys.length →
    (xs = ys ∧ memcmpBytes xs ys = 0) ∨
    (∃ i, i < xs.length ∧ (∀ j, j < i → xs.getD j 0 = ys.getD j 0) ∧
      xs.getD i 0 ≠ ys.getD i 0 ∧
      memcmpBytes xs ys = (xs.getD i 0 : Int) - (ys.getD i 0 : Int))
  | [], [], _ => Or.inl ⟨rfl, rfl⟩
  | [], _ :: _, h => by simp at h
  | _ :: _, [], h => by simp at h
  | a :: as, b :: bs, h => by
    by_cases hab : a = b
    · subst hab
      rcases memcmpBytes_spec as bs (by simpa using h) with
        ⟨heq, hz⟩ | ⟨i, hi, hpre, hne, hval⟩
      · exact Or.inl ⟨by rw [heq], by simp [memcmpBytes, hz]⟩
      · refine Or.inr ⟨i + 1, by simpa using Nat.succ_lt_succ hi, ?_, ?_, ?_⟩
        · intro j hj
          cases j with
          | zero => rfl
          | succ k => exact hpre k (by omega)
        · simpa using hne
        · simpa [memcmpBytes] using hval
    · refine Or.inr ⟨0, by simp, ?_, by simpa using hab, ?_⟩
      · intro j hj
        exact absurd hj (Nat.not_lt_zero j)
      · simp [memcmpBytes, hab]

/-! Claim theorems. -/

/-- C1: `copy_between_regions` behaves correctly under overlap, with move
semantics: for every region and every pair of in-bounds views of equal
length into that region, after the copy the destination range holds the
bytes the source range held before the call; in particular for the region
`[0,…,9]` copying `view(0,6)` to `view(2,6)` yields bytes
`[0,1,0,1,2,3,4,5]` in positions `0..7`. -/
theorem copy_between_regions_overlap_move :
    (∀ (r : List Nat) (s d : View), s.off + s.len ≤ r.length →
      d.off + d.len ≤ r.length → s.len = d.len →
      ∃ r', copy_between_regions r s d = Except.ok r' ∧
        ∀ i, i < s.len → r'[d.off + i]? = r[s.off + i]?) ∧
    copy_between_regions [0,1,2,3,4,5,6,7,8,9] ⟨0,6⟩ ⟨2,6⟩ =
      Except.ok [0,1,0,1,2,3,4,5,8,9] := by
  constructor
  · intro r s d h1 h2 h3
    refine ⟨_, by rw [copy_between_regions, if_pos h1, if_pos h2, if_pos h3],
      ?_⟩
    intro i hi
    have hdata : (readBytes r s.off s.len).length = s.len :=
      readBytes_length r s.off s.len h1
    rw [bigstringaf_blit_to_bigstring,
      writeBytes_getElem_mid _ _ _ i (by omega) (by rw [hdata]; exact hi),
      readBytes_getElem r s.off s.len i hi]
  · decide

/-- C1 witness: the universal part applied to the capacity-10 region of
the specification's overlap example. -/
theorem copy_between_regions_overlap_move_witness :
    ∃ r', copy_between_regions [0,1,2,3,4,5,6,7,8,9] ⟨0,6⟩ ⟨2,6⟩ =
      Except.ok r' ∧ ∀ i, i < (6 : Nat) → r'[2 + i]? =
        [0,1,2,3,4,5,6,7,8,9][0 + i]? :=
  copy_between_regions_overlap_move.1 [0,1,2,3,4,5,6,7,8,9] ⟨0,6⟩ ⟨2,6⟩
    (by decide) (by decide) (by decide)

/-- C2: bounds enforcement — whenever any operand's view exceeds its
region's capacity, each of the five operations returns `OutOfBounds`; no
byte transfer happens (the error result carries no modified region, and
the checks precede the blit in every definition). -/
theorem bounds_enforcement :
    (∀ (src : List Nat) (v : View) (dst : List Nat) (dstOff : Nat),
      src.length < v.off + v.len ∨ dst.length < dstOff + v.len →
      copy_to_sequence src v dst dstOff = Except.error BsError.OutOfBounds) ∧
    (∀ (r : List Nat) (s d : View),
      r.length < s.off + s.len ∨ r.length < d.off + d.len →
      copy_between_regions r s d = Except.error BsError.OutOfBounds) ∧
    (∀ (src : List Nat) (srcOff : Nat) (dst : List Nat) (v : View),
      src.length < srcOff + v.len ∨ dst.length < v.off + v.len →
      copy_from_sequence src srcOff dst v = Except.error BsError.OutOfBounds) ∧
    (∀ (r1 : List Nat) (v1 : View) (r2 : List Nat) (v2 : View),
      r1.length < v1.off + v1.len ∨ r2.length < v2.off + v2.len →
      compare r1 v1 r2 v2 = Except.error BsError.OutOfBounds) ∧
    (∀ (r : List Nat) (v : View) (s : List Nat) (vs : View),
      r.length < v.off + v.len ∨ s.length < vs.off + vs.len →
      compare_with_sequence r v s vs = Except.error BsError.OutOfBounds) := by
  refine ⟨?_, ?_, ?_, ?_, ?_⟩
  · intro src v dst dstOff h
    rcases h with h | h <;>
      · rw [copy_to_sequence]
        split_ifs <;> first | rfl | (exfalso; omega)
  · intro r s d h
    rcases h with h | h <;>
      · rw [copy_between_regions]
        split_ifs <;> first | rfl | (exfalso; omega)
  · intro src srcOff dst v h
    rcases h with h | h <;>
      · rw [copy_from_sequence]
        split_ifs <;> first | rfl | (exfalso; omega)
  · intro r1 v1 r2 v2 h
    rcases h with h | h <;>
      · rw [compare]
        split_ifs <;> first | rfl | (exfalso; omega)
  · intro r v s vs h
    rcases h with h | h <;>
      · rw [compare_with_sequence]
        split_ifs <;> first | rfl | (exfalso; omega)

/-- C2 witness: an empty region with a length-1 view is rejected by
`copy_to_sequence`. -/
theorem bounds_enforcement_witness :
    copy_to_sequence [] ⟨0, 1⟩ [7] 0 = Except.error BsError.OutOfBounds :=
  bounds_enforcement.1 [] ⟨0, 1⟩ [7] 0 (Or.inl (by decide))

/-- C8: purity and idempotence of comparison — in the state-passing
semantics of the two comparison stubs, the memory pair after the call is
the memory pair before it (no byte of either operand's region is
modified), and running the same comparison a second time on the state the
first call left behind returns the identical result. -/
theorem compare_pure_reads :
    ∀ (m : List Nat × List Nat) (v1 v2 : View),
      (compareRun m v1 v2).2 = m ∧
      (compareRun (compareRun m v1 v2).2 v1 v2).1 = (compareRun m v1 v2).1 ∧
      (compare_with_sequenceRun m v1 v2).2 = m ∧
      (compare_with_sequenceRun (compare_with_sequenceRun m v1 v2).2 v1
        v2).1 = (compare_with_sequenceRun m v1 v2).1 :=
  fun _ _ _ => ⟨rfl, rfl, rfl, rfl⟩

/-- C9: zero-length operations — with in-bounds operands and length 0,
every copy returns its destination unchanged and both comparisons return
0, for arbitrary offsets within capacity. -/
theorem zero_length_ops :
    (∀ (src : List Nat) (o : Nat) (dst : List Nat) (dstOff : Nat),
      o ≤ src.length → dstOff ≤ dst.length →
      copy_to_sequence src ⟨o, 0⟩ dst dstOff = Except.ok dst) ∧
    (∀ (r : List Nat) (o1 o2 : Nat), o1 ≤ r.length → o2 ≤ r.length →
      copy_between_regions r ⟨o1, 0⟩ ⟨o2, 0⟩ = Except.ok r) ∧
    (∀ (src : List Nat) (srcOff : Nat) (dst : List Nat) (o : Nat),
      srcOff ≤ src.length → o ≤ dst.length →
      copy_from_sequence src srcOff dst ⟨o, 0⟩ = Except.ok dst) ∧
    (∀ (r1 : List Nat) (o1 : Nat) (r2 : List Nat) (o2 : Nat),
      o1 ≤ r1.length → o2 ≤ r2.length →
      compare r1 ⟨o1, 0⟩ r2 ⟨o2, 0⟩ = Except.ok 0) ∧
    (∀ (r : List Nat) (o : Nat) (s : List Nat) (o2 : Nat),
      o ≤ r.length → o2 ≤ s.length →
      compare_with_sequence r ⟨o, 0⟩ s ⟨o2, 0⟩ = Except.ok 0) := by
  refine ⟨?_, ?_, ?_, ?_, ?_⟩
  · intro src o dst dstOff h1 h2
    simp [copy_to_sequence, bigstringaf_blit_to_bytes, writeBytes,
      readBytes, h1, h2]
  · intro r o1 o2 h1 h2
    simp [copy_between_regions, bigstringaf_blit_to_bigstring, writeBytes,
      readBytes, h1, h2]
  · intro src srcOff dst o h1 h2
    simp [copy_from_sequence, bigstringaf_blit_from_bytes, writeBytes,
      readBytes, h1, h2]
  · intro r1 o1 r2 o2 h1 h2
    simp [compare, bigstringaf_memcmp_bigstring, readBytes, memcmpBytes,
      h1, h2]
  · intro r o s o2 h1 h2
    simp [compare_with_sequence, bigstringaf_memcmp_string, readBytes,
      memcmpBytes, h1, h2]

/-- C9 witness: length-0 operations at offset 2 of a 3-byte region. -/
theorem zero_length_ops_witness :
    copy_between_regions [4, 5, 6] ⟨2, 0⟩ ⟨1, 0⟩ = Except.ok [4, 5, 6] :=
  zero_length_ops.2.1 [4, 5, 6] 2 1 (by decide) (by decide)

/-- C10: determinism — every operation is a pure function of the regions'
byte contents and the supplied offsets and lengths: two runs of any of
the five operations on regions holding identical bytes with identical
offsets and lengths return identical results and identical resulting
contents. -/
theorem operations_deterministic :
    ∀ (rA rB qA qB : List Nat) (s d v1 v2 : View) (dstOff srcOff : Nat),
      rA = rB → qA = qB →
      copy_to_sequence rA v1 qA dstOff = copy_to_sequence rB v1 qB dstOff ∧
      copy_between_regions rA s d = copy_between_regions rB s d ∧
      copy_from_sequence rA srcOff qA v1 =
        copy_from_sequence rB srcOff qB v1 ∧
      compare rA v1 qA v2 = compare rB v1 qB v2 ∧
      compare_with_sequence rA v1 qA v2 =
        compare_with_sequence rB v1 qB v2 := by
  intro rA rB qA qB s d v1 v2 dstOff srcOff h1 h2
  subst h1
  subst h2
  exact ⟨rfl, rfl, rfl, rfl, rfl⟩

/-- C10 witness: two runs of each of the five operations on equal
contents coincide. -/
theorem operations_deterministic_witness :
    copy_to_sequence [1, 2] ⟨0, 1⟩ [3] 0 =
      copy_to_sequence [1, 2] ⟨0, 1⟩ [3] 0 ∧
    copy_between_regions [1, 2] ⟨0, 1⟩ ⟨1, 1⟩ =
      copy_between_regions [1, 2] ⟨0, 1⟩ ⟨1, 1⟩ ∧
    copy_from_sequence [1, 2] 0 [3] ⟨0, 1⟩ =
      copy_from_sequence [1, 2] 0 [3] ⟨0, 1⟩ ∧
    compare [1, 2] ⟨0, 1⟩ [3] ⟨0, 1⟩ = compare [1, 2] ⟨0, 1⟩ [3] ⟨0, 1⟩ ∧
    compare_with_sequence [1, 2] ⟨0, 1⟩ [3] ⟨0, 1⟩ =
      compare_with_sequence [1, 2] ⟨0, 1⟩ [3] ⟨0, 1⟩ :=
  operations_deterministic [1, 2] [1, 2] [3] [3] ⟨0, 1⟩ ⟨1, 1⟩ ⟨0, 1⟩ ⟨0, 1⟩
    0 0 rfl rfl

/-- C3: round-trip copy — for every byte contents `b` and every region and
output sequence of capacity at least `b.length`, copying `b` into the
region and then copying the region's view back out yields `b` again in the
first `b.length` bytes of the output. -/
theorem round_trip_copy :
    ∀ (b region out : List Nat), b.length ≤ region.length →
      b.length ≤ out.length →
      ∃ r' o', copy_from_sequence b 0 region ⟨0, b.length⟩ = Except.ok r' ∧
        copy_to_sequence r' ⟨0, b.length⟩ out 0 = Except.ok o' ∧
        o'.take b.length = b := by
  intro b region out h1 h2
  have e1 : copy_from_sequence b 0 region ⟨0, b.length⟩ =
      Except.ok (b ++ region.drop b.length) := by
    rw [copy_from_sequence, if_pos (show 0 + b.length ≤ b.length by omega),
      if_pos (show (0 : Nat) + b.length ≤ region.length by omega)]
    simp [bigstringaf_blit_from_bytes, writeBytes, readBytes]
  have e2 : copy_to_sequence (b ++ region.drop b.length) ⟨0, b.length⟩
      out 0 = Except.ok (b ++ out.drop b.length) := by
    rw [copy_to_sequence,
      if_pos (show (0 : Nat) + b.length ≤ (b ++ region.drop b.length).length
        by simp),
      if_pos (show (0 : Nat) + b.length ≤ out.length by omega)]
    simp [bigstringaf_blit_to_bytes, writeBytes, readBytes, List.take_left]
  exact ⟨_, _, e1, e2, by simp [List.take_left]⟩

/-- C3 witness: the contents `[9, 8]` survive the round trip through a
capacity-3 region into a capacity-2 output. -/
theorem round_trip_copy_witness :
    ∃ r' o', copy_from_sequence [9, 8] 0 [0, 0, 0] ⟨0, 2⟩ = Except.ok r' ∧
      copy_to_sequence r' ⟨0, 2⟩ [0, 0] 0 = Except.ok o' ∧
      o'.take 2 = [9, 8] :=
  round_trip_copy [9, 8] [0, 0, 0] [0, 0] (by decide) (by decide)

/-- C5 counterexample: the claim as stated fails when a view is also out
of bounds — with `r1 = r2 = []`, `v1 = (0,1)`, `v2 = (0,0)` the lengths
differ, yet both `compare` and `copy_between_regions` report
`OutOfBounds`, not `LengthMismatch`, because all bounds are validated
before the length check. -/
theorem length_mismatch_oob_counterexample :
    (View.mk 0 1).len ≠ (View.mk 0 0).len ∧
    compare ([] : List Nat) (View.mk 0 1) [] (View.mk 0 0) ≠
      Except.error BsError.LengthMismatch ∧
    copy_between_regions ([] : List Nat) (View.mk 0 1) (View.mk 0 0) ≠
      Except.error BsError.LengthMismatch := by decide

/-- C5 (amended): for every pair of in-bounds views with differing
lengths, `compare` and `copy_between_regions` return `LengthMismatch`
without touching memory (the error result carries no modified region). -/
theorem length_mismatch_inbounds :
    (∀ (r1 : List Nat) (v1 : View) (r2 : List Nat) (v2 : View),
      v1.off + v1.len ≤ r1.length → v2.off + v2.len ≤ r2.length →
      v1.len ≠ v2.len →
      compare r1 v1 r2 v2 = Except.error BsError.LengthMismatch) ∧
    (∀ (r : List Nat) (s d : View), s.off + s.len ≤ r.length →
      d.off + d.len ≤ r.length → s.len ≠ d.len →
      copy_between_regions r s d = Except.error BsError.LengthMismatch) := by
  constructor
  · intro r1 v1 r2 v2 h1 h2 h3
    rw [compare, if_pos h1, if_pos h2, if_neg h3]
  · intro r s d h1 h2 h3
    rw [copy_between_regions, if_pos h1, if_pos h2, if_neg h3]

/-- C5 witness: in-bounds views of lengths 1 and 0 are rejected with
`LengthMismatch`. -/
theorem length_mismatch_inbounds_witness :
    compare [1] ⟨0, 1⟩ [] ⟨0, 0⟩ = Except.error BsError.LengthMismatch :=
  length_mismatch_inbounds.1 [1] ⟨0, 1⟩ [] ⟨0, 0⟩ (by decide) (by decide)
    (by decide)

/-- C6: comparison consistency — `compare v v = 0` for every in-bounds
view, `compare a b = -compare b a` for equal-length in-bounds views, the
views over `[1,2,3]` and `[1,2,4]` compare negative, and `[1,2,3]`
against `[1,2,3]` compares to zero. -/
theorem compare_consistency :
    (∀ (r : List Nat) (v : View), v.off + v.len ≤ r.length →
      compare r v r v = Except.ok 0) ∧
    (∀ (r1 : List Nat) (v1 : View) (r2 : List Nat) (v2 : View),
      v1.off + v1.len ≤ r1.length → v2.off + v2.len ≤ r2.length →
      v1.len = v2.len →
      ∃ c, compare r1 v1 r2 v2 = Except.ok c ∧
        compare r2 v2 r1 v1 = Except.ok (-c)) ∧
    (∃ c, compare [1, 2, 3] ⟨0, 3⟩ [1, 2, 4] ⟨0, 3⟩ = Except.ok c ∧
      c < 0) ∧
    compare [1, 2, 3] ⟨0, 3⟩ [1, 2, 3] ⟨0, 3⟩ = Except.ok 0 := by
  refine ⟨?_, ?_, ⟨-1, by decide, by decide⟩, by decide⟩
  · intro r v h
    rw [compare, if_pos h, if_pos h, if_pos rfl,
      bigstringaf_memcmp_bigstring, memcmpBytes_self]
  · intro r1 v1 r2 v2 h1 h2 h3
    refine ⟨bigstringaf_memcmp_bigstring r1 v1.off r2 v2.off v1.len,
      by rw [compare, if_pos h1, if_pos h2, if_pos h3], ?_⟩
    rw [compare, if_pos h2, if_pos h1, if_pos h3.symm,
      bigstringaf_memcmp_bigstring, bigstringaf_memcmp_bigstring, ← h3,
      memcmpBytes_swap]

/-- C6 witness: the antisymmetry part applied to the specification's
example views. -/
theorem compare_consistency_witness :
    ∃ c, compare [1, 2, 3] ⟨0, 3⟩ [1, 2, 4] ⟨0, 3⟩ = Except.ok c ∧
      compare [1, 2, 4] ⟨0, 3⟩ [1, 2, 3] ⟨0, 3⟩ = Except.ok (-c) :=
  compare_consistency.2.1 [1, 2, 3] ⟨0, 3⟩ [1, 2, 4] ⟨0, 3⟩ (by decide)
    (by decide) (by decide)

/-- C7: frame property of copies — every successful copy preserves the
destination region's capacity and leaves every destination byte outside
`[dst_offset, dst_offset + length)` unchanged; for the aliasing-capable
`copy_between_regions` this covers all bytes of the shared region outside
the written range, hence also the source bytes disjoint from it, and the
other two operations never modify their source operand at all (their
result is the new destination only). -/
theorem copy_frame :
    (∀ (src : List Nat) (v : View) (dst : List Nat) (dstOff : Nat)
      (r' : List Nat), copy_to_sequence src v dst dstOff = Except.ok r' →
      r'.length = dst.length ∧
      ∀ i, i < dstOff ∨ dstOff + v.len ≤ i → r'[i]? = dst[i]?) ∧
    (∀ (r : List Nat) (s d : View) (r' : List Nat),
      copy_between_regions r s d = Except.ok r' →
      r'.length = r.length ∧
      ∀ i, i < d.off ∨ d.off + d.len ≤ i → r'[i]? = r[i]?) ∧
    (∀ (src : List Nat) (srcOff : Nat) (dst : List Nat) (v : View)
      (r' : List Nat), copy_from_sequence src srcOff dst v = Except.ok r' →
      r'.length = dst.length ∧
      ∀ i, i < v.off ∨ v.off + v.len ≤ i → r'[i]? = dst[i]?) := by
  refine ⟨?_, ?_, ?_⟩
  · intro src v dst dstOff r' h
    rw [copy_to_sequence] at h
    split_ifs at h with h1 h2
    · injection h with h'
      subst h'
      have hdl : (readBytes src v.off v.len).length = v.len :=
        readBytes_length _ _ _ h1
      constructor
      · rw [bigstringaf_blit_to_bytes]
        exact writeBytes_length _ _ _ (by rw [hdl]; omega)
      · intro i hi
        rw [bigstringaf_blit_to_bytes]
        rcases hi with hi | hi
        · exact writeBytes_getElem_lt _ _ _ i (by omega) hi
        · exact writeBytes_getElem_ge _ _ _ i (by rw [hdl]; omega)
            (by rw [hdl]; omega)
  · intro r s d r' h
    rw [copy_between_regions] at h
    split_ifs at h with h1 h2 h3
    · injection h with h'
      subst h'
      have hdl : (readBytes r s.off s.len).length = s.len :=
        readBytes_length _ _ _ h1
      constructor
      · rw [bigstringaf_blit_to_bigstring]
        exact writeBytes_length _ _ _ (by rw [hdl]; omega)
      · intro i hi
        rw [bigstringaf_blit_to_bigstring]
        rcases hi with hi | hi
        · exact writeBytes_getElem_lt _ _ _ i (by omega) hi
        · exact writeBytes_getElem_ge _ _ _ i (by rw [hdl]; omega)
            (by rw [hdl]; omega)
  · intro src srcOff dst v r' h
    rw [copy_from_sequence] at h
    split_ifs at h with h1 h2
    · injection h with h'
      subst h'
      have hdl : (readBytes src srcOff v.len).length = v.len :=
        readBytes_length _ _ _ h1
      constructor
      · rw [bigstringaf_blit_from_bytes]
        exact writeBytes_length _ _ _ (by rw [hdl]; omega)
      · intro i hi
        rw [bigstringaf_blit_from_bytes]
        rcases hi with hi | hi
        · exact writeBytes_getElem_lt _ _ _ i (by omega) hi
        · exact writeBytes_getElem_ge _ _ _ i (by rw [hdl]; omega)
            (by rw [hdl]; omega)

/-- Case analysis of `memcmp` over two in-bounds ranges of the same
length: either the ranges hold equal bytes and the result is 0, or there
is a first index at which they differ and the result's sign matches the
order of the two bytes there. -/
theorem memcmp_range_cases (r1 : List Nat) (o1 : Nat) (r2 : List Nat)
    (o2 len : Nat) (h1 : o1 + len ≤ r1.length) (h2 : o2 + len ≤ r2.length) :
    (readBytes r1 o1 len = readBytes r2 o2 len ∧
      memcmpBytes (readBytes r1 o1 len) (readBytes r2 o2 len) = 0) ∨
    (∃ i, i < len ∧
      (∀ j, j < i → (readBytes r1 o1 len).getD j 0 =
        (readBytes r2 o2 len).getD j 0) ∧
      (readBytes r1 o1 len).getD i 0 ≠ (readBytes r2 o2 len).getD i 0 ∧
      (memcmpBytes (readBytes r1 o1 len) (readBytes r2 o2 len) < 0 ↔
        (readBytes r1 o1 len).getD i 0 < (readBytes r2 o2 len).getD i 0) ∧
      (0 < memcmpBytes (readBytes r1 o1 len) (readBytes r2 o2 len) ↔
        (readBytes r2 o2 len).getD i 0 < (readBytes r1 o1 len).getD i 0)) := by
  have hx := readBytes_length r1 o1 len h1
  have hy := readBytes_length r2 o2 len h2
  rcases memcmpBytes_spec (readBytes r1 o1 len) (readBytes r2 o2 len)
    (by rw [hx, hy]) with ⟨heq, hz⟩ | ⟨i, hi, hpre, hne, hval⟩
  · exact Or.inl ⟨heq, hz⟩
  · refine Or.inr ⟨i, by rw [hx] at hi; exact hi, hpre, hne, ?_, ?_⟩
    · rw [hval]
      omega
    · rw [hval]
      omega

/-- C4: lexicographic contract of both comparisons — for every pair of
equal-length in-bounds operands the returned value is 0 exactly when the
compared ranges are byte-for-byte equal, and otherwise its sign matches
the order of the first differing byte (bytes compared as unsigned
values); `compare_with_sequence` satisfies the same contract with a
sequence-backed second operand. -/
theorem compare_lexicographic :
    (∀ (r1 : List Nat) (v1 : View) (r2 : List Nat) (v2 : View),
      v1.off + v1.len ≤ r1.length → v2.off + v2.len ≤ r2.length →
      v1.len = v2.len →
      ∃ c, compare r1 v1 r2 v2 = Except.ok c ∧
        ((readBytes r1 v1.off v1.len = readBytes r2 v2.off v1.len ∧
          c = 0) ∨
         (∃ i, i < v1.len ∧
           (∀ j, j < i → (readBytes r1 v1.off v1.len).getD j 0 =
             (readBytes r2 v2.off v1.len).getD j 0) ∧
           (readBytes r1 v1.off v1.len).getD i 0 ≠
             (readBytes r2 v2.off v1.len).getD i 0 ∧
           (c < 0 ↔ (readBytes r1 v1.off v1.len).getD i 0 <
             (readBytes r2 v2.off v1.len).getD i 0) ∧
           (0 < c ↔ (readBytes r2 v2.off v1.len).getD i 0 <
             (readBytes r1 v1.off v1.len).getD i 0)))) ∧
    (∀ (r : List Nat) (v : View) (s : List Nat) (vs : View),
      v.off + v.len ≤ r.length → vs.off + vs.len ≤ s.length →
      v.len = vs.len →
      ∃ c, compare_with_sequence r v s vs = Except.ok c ∧
        ((readBytes r v.off v.len = readBytes s vs.off v.len ∧ c = 0) ∨
         (∃ i, i < v.len ∧
           (∀ j, j < i → (readBytes r v.off v.len).getD j 0 =
             (readBytes s vs.off v.len).getD j 0) ∧
           (readBytes r v.off v.len).getD i 0 ≠
             (readBytes s vs.off v.len).getD i 0 ∧
           (c < 0 ↔ (readBytes r v.off v.len).getD i 0 <
             (readBytes s vs.off v.len).getD i 0) ∧
           (0 < c ↔ (readBytes s vs.off v.len).getD i 0 <
             (readBytes r v.off v.len).getD i 0)))) := by
  constructor
  · intro r1 v1 r2 v2 h1 h2 h3
    refine ⟨bigstringaf_memcmp_bigstring r1 v1.off r2 v2.off v1.len,
      by rw [compare, if_pos h1, if_pos h2, if_pos h3], ?_⟩
    exact memcmp_range_cases r1 v1.off r2 v2.off v1.len h1
      (by rw [h3]; exact h2)
  · intro r v s vs h1 h2 h3
    refine ⟨bigstringaf_memcmp_string r v.off s vs.off v.len,
      by rw [compare_with_sequence, if_pos h1, if_pos h2, if_pos h3], ?_⟩
    exact memcmp_range_cases r v.off s vs.off v.len h1
      (by rw [h3]; exact h2)

/-- C4 witness: the contract applied to singleton regions holding bytes 1
and 2. -/
theorem compare_lexicographic_witness :
    ∃ c, compare [1] ⟨0, 1⟩ [2] ⟨0, 1⟩ = Except.ok c ∧
      ((readBytes [1] 0 1 = readBytes [2] 0 1 ∧ c = 0) ∨
       (∃ i, i < 1 ∧
         (∀ j, j < i → (readBytes [1] 0 1).getD j 0 =
           (readBytes [2] 0 1).getD j 0) ∧
         (readBytes [1] 0 1).getD i 0 ≠ (readBytes [2] 0 1).getD i 0 ∧
         (c < 0 ↔ (readBytes [1] 0 1).getD i 0 <
           (readBytes [2] 0 1).getD i 0) ∧
         (0 < c ↔ (readBytes [2] 0 1).getD i 0 <
           (readBytes [1] 0 1).getD i 0))) :=
  compare_lexicographic.1 [1] ⟨0, 1⟩ [2] ⟨0, 1⟩ (by decide) (by decide)
    (by decide)

/-- C7 witness: copying one byte into a two-byte destination leaves the
byte outside the written range unchanged. -/
theorem copy_frame_witness :
    ([5, 8] : List Nat).length = ([7, 8] : List Nat).length ∧
    ∀ i, i < 0 ∨ 0 + (View.mk 0 1).len ≤ i →
      ([5, 8] : List Nat)[i]? = ([7, 8] : List Nat)[i]? :=
  copy_frame.1 [5] ⟨0, 1⟩ [7, 8] 0 [5, 8] (by decide)

end Bigstringaf
